import Mathlib

/-!
Shallow embedding of the email-counter response-time analyzers.

Timestamps are modelled as rational numbers of seconds (the Python code
works with `datetime` values of sub-second precision; subtraction of two
datetimes yields a duration whose `total_seconds()` is a real number,
modelled here as `ℚ`).  Python's `int()` applied to the non-negative
durations that reach `format_duration` truncates toward zero, which on
non-negative arguments coincides with the floor `⌊·⌋₊`.
-/

/-- A response pair as built by the analyzers (`response_times.append(...)`
in `messages_analyzer.py` lines 183-190, `gmail_analyzer.py` lines 184-190,
`outlook_analyzer.py` lines 224-230).  Display-only metadata (contact,
subject, sender) is omitted; `received`/`sent` are the two timestamps and
`response_time` the recorded latency in seconds. -/
structure RPair where
  received : ℚ
  sent : ℚ
  response_time : ℚ
deriving DecidableEq, Repr

/-- A Messages chat message as consumed by
`MessagesAnalyzer.analyze_response_times` (only the fields the pairing
loop reads: `date` and `is_from_me`). -/
structure MMsg where
  date : ℚ
  is_from_me : Bool
deriving DecidableEq, Repr

/-- A Gmail thread message as consumed by
`GmailAnalyzer.analyze_response_times`; `sent` records whether the label
list contains `SENT` (the code tests `'SENT' not in current_msg['labelIds']`
and `'SENT' in next_msg['labelIds']`). -/
structure GMsg where
  date : ℚ
  sent : Bool
deriving DecidableEq, Repr

/-- The test `i > 0 and chat_messages[i-1]['is_from_me']` of
`messages_analyzer.py` line 168, with the previous list element passed as
an option (none exactly at index 0). -/
def prevFromMe : Option MMsg → Bool
  | some p => p.is_from_me
  | none => false

/-- One iteration of the Messages pairing loop
(`messages_analyzer.py` lines 160-193), on message `m` with the previous
list element `prev` (none at index 0) and the current `last_received`
state.  Returns the new `last_received` together with the pairs emitted
by this iteration.  A received message overwrites `last_received`; a sent
message with `last_received` set is skipped when the previous element was
also sent (`continue`, state kept); otherwise, if the sent date lies in
the window, the candidate latency is formed, and the two sanity `continue`
statements (latency below 1 second or above 7 days) skip the iteration
WITHOUT reaching the `last_received = None` line; an emitted pair, or a
sent date outside the window, clears `last_received`. -/
def msgStep (s e : ℚ) (prev lastR : Option MMsg) (m : MMsg) :
    Option MMsg × List RPair :=
  if m.is_from_me = false then
    (some m, [])
  else
    match lastR with
    | none => (lastR, [])
    | some lr =>
      if prevFromMe prev = true then
        (some lr, [])
      else if s ≤ m.date ∧ m.date ≤ e then
        if m.date - lr.date < 1 then
          (some lr, [])
        else if m.date - lr.date > 7 * 24 * 3600 then
          (some lr, [])
        else
          (none, [{ received := lr.date, sent := m.date,
                    response_time := m.date - lr.date }])
      else
        (none, [])

/-- The Messages pairing loop over a date-sorted conversation, carrying the
previous element and the `last_received` state (`messages_analyzer.py`
lines 158-193). -/
def msgLoopAux (s e : ℚ) : Option MMsg → Option MMsg → List MMsg → List RPair
  | _, _, [] => []
  | prev, lastR, m :: rest =>
    (msgStep s e prev lastR m).2 ++
      msgLoopAux s e (some m) (msgStep s e prev lastR m).1 rest

/-- Response pairs produced by `MessagesAnalyzer.analyze_response_times`
for one conversation whose messages are already sorted by date
(the code sorts with `chat_messages.sort(key=lambda m: m['date'])`). -/
def messagesPairs (s e : ℚ) (msgs : List MMsg) : List RPair :=
  msgLoopAux s e none none msgs

/-- Response pairs produced by `GmailAnalyzer.analyze_response_times` for
one thread whose messages are already sorted by date (`get_thread_messages`
sorts by internal date): for every adjacent index pair `(i, i+1)`, when
message `i` is received and message `i+1` is sent and the sent date lies in
the closed window, the pair is appended (`gmail_analyzer.py` lines 171-190).
No latency filter of any kind appears in this loop. -/
def gmailPairs (s e : ℚ) : List GMsg → List RPair
  | c :: n :: rest =>
    (if c.sent = false ∧ n.sent = true then
      if s ≤ n.date ∧ n.date ≤ e then
        [{ received := c.date, sent := n.date,
           response_time := n.date - c.date }]
      else []
    else []) ++ gmailPairs s e (n :: rest)
  | _ => []

/-- Python's builtin `min` over a non-empty sequence (the analyzers call it
only on non-empty `response_times`; the 0 default for `[]` is unreachable
there). -/
def listMin : List ℚ → ℚ
  | [] => 0
  | x :: xs => xs.foldl min x

/-- Python's builtin `max` over a non-empty sequence (the analyzers call it
only on non-empty `response_times`; the 0 default for `[]` is unreachable
there). -/
def listMax : List ℚ → ℚ
  | [] => 0
  | x :: xs => xs.foldl max x

/-- The populated statistics record built by all three analyzers from a
non-empty pair list (`gmail_analyzer.py` lines 196-225,
`messages_analyzer.py` lines 198-228, `outlook_analyzer.py` lines 236-260;
the three blocks are identical on these fields).  Formatted/hour variants
and the Messages-only per-service counts are display projections of these
fields and are omitted. -/
structure Stats where
  total_responses : ℕ
  avg_response_time_seconds : ℚ
  median_response_time_seconds : ℚ
  fastest_response : ℚ
  slowest_response : ℚ
  response_details : List RPair
deriving DecidableEq, Repr

/-- Statistics computation on a non-empty pair list: `avg = sum/len`,
`median = sorted(times)[len(sorted_times) // 2]`, `fastest = min`,
`slowest = max` (same code in all three analyzers). -/
def statsOf (pairs : List RPair) : Stats :=
  let ls := pairs.map (fun rt => rt.response_time)
  let sorted_times := List.insertionSort (· ≤ ·) ls
  { total_responses := pairs.length
    avg_response_time_seconds := ls.sum / (pairs.length : ℚ)
    median_response_time_seconds := sorted_times.getD (sorted_times.length / 2) 0
    fastest_response := listMin ls
    slowest_response := listMax ls
    response_details := pairs }

/-- Result of `analyze_response_times`: a populated statistics dict when
pairs survive, the `total_responses: 0` no-data dict when none do, or the
empty dict `{}` returned by the exception handler on a fetch failure. -/
inductive AnalyzeResult where
  | populated : Stats → AnalyzeResult
  | noData : String → AnalyzeResult
  | failure : AnalyzeResult
deriving DecidableEq, Repr

/-- The message placed in the no-data dict by every analyzer. -/
def noDataMessage : String := "No responses found in the specified period"

/-- The `if response_times: ... else: ...` tail of
`analyze_response_times` shared by the analyzers. -/
def computeStats (pairs : List RPair) : AnalyzeResult :=
  if pairs = [] then .noData noDataMessage else .populated (statsOf pairs)

/-- `stats.get('total_responses', 0)` as used by the report/printing code. -/
def totalResponses : AnalyzeResult → ℕ
  | .populated st => st.total_responses
  | .noData _ => 0
  | .failure => 0

/-- `MessagesAnalyzer.analyze_response_times` restricted to one
conversation: pairing followed by the statistics tail. -/
def analyzeMessages (s e : ℚ) (msgs : List MMsg) : AnalyzeResult :=
  computeStats (messagesPairs s e msgs)

/-- `GmailAnalyzer.analyze_response_times` restricted to one thread:
pairing followed by the statistics tail. -/
def analyzeGmail (s e : ℚ) (msgs : List GMsg) : AnalyzeResult :=
  computeStats (gmailPairs s e msgs)

/-- The combined cross-source average computed by
`EmailReporter.generate_html_report` (lines 134-149 for the 24h window,
lines 234-243 for 7d, analogously for 28d): concatenate the three
sources' `response_details` lists and divide the latency sum by the total
pair count. -/
def combinedAvgSeconds (gmail outlook messages : List RPair) : ℚ :=
  let all := gmail ++ outlook ++ messages
  (all.map (fun rt => rt.response_time)).sum / (all.length : ℚ)

/-- Python's `%` on durations: floored modulus `a - b * ⌊a / b⌋`. -/
def pymod (a b : ℚ) : ℚ := a - b * (⌊a / b⌋ : ℚ)

/-- Translation of `format_duration` (identical in `gmail_analyzer.py`
lines 241-256, `messages_analyzer.py` lines 246-261, `outlook_analyzer.py`
lines 278-293).  Python's `int()` truncates toward zero, which on the
non-negative quantities formed in each branch equals `⌊·⌋₊`.  Note the
seconds branch appends the literal `" seconds"` with no singular form,
while the minute/hour/day counts are singular exactly when the count is
one. -/
def format_duration (seconds : ℚ) : String :=
  if seconds < 60 then
    toString ⌊seconds⌋₊ ++ " seconds"
  else if seconds < 3600 then
    let minutes := ⌊seconds / 60⌋₊
    toString minutes ++ " minute" ++ (if minutes ≠ 1 then "s" else "")
  else if seconds < 86400 then
    let hours := ⌊seconds / 3600⌋₊
    let minutes := ⌊pymod seconds 3600 / 60⌋₊
    toString hours ++ " hour" ++ (if hours ≠ 1 then "s" else "") ++ " " ++
      toString minutes ++ " min"
  else
    let days := ⌊seconds / 86400⌋₊
    let hours := ⌊pymod seconds 86400 / 3600⌋₊
    toString days ++ " day" ++ (if days ≠ 1 then "s" else "") ++ " " ++
      toString hours ++ " hour" ++ (if hours ≠ 1 then "s" else "")

/-! ### Helper lemmas about the Messages pairing step and loop -/

/-- A received message only updates the `last_received` state. -/
lemma msgStep_recv (s e : ℚ) (prev lastR : Option MMsg) (m : MMsg)
    (h : m.is_from_me = false) : msgStep s e prev lastR m = (some m, []) := by
  simp [msgStep, h]

/-- A sent message with no pending received message does nothing. -/
lemma msgStep_sent_none (s e : ℚ) (prev : Option MMsg) (m : MMsg)
    (h : m.is_from_me = true) : msgStep s e prev none m = (none, []) := by
  simp [msgStep, h]

/-- A sent message directly after another sent message is skipped as a
follow-up, without clearing `last_received`. -/
lemma msgStep_followup (s e : ℚ) (prev : Option MMsg) (lr m : MMsg)
    (h : m.is_from_me = true) (hp : prevFromMe prev = true) :
    msgStep s e prev (some lr) m = (some lr, []) := by
  simp [msgStep, h, hp]

/-- A first sent response inside the window passing both sanity filters is
emitted and clears `last_received`. -/
lemma msgStep_emit (s e : ℚ) (prev : Option MMsg) (lr m : MMsg)
    (h : m.is_from_me = true) (hp : prevFromMe prev = false)
    (hw : s ≤ m.date ∧ m.date ≤ e) (h1 : 1 ≤ m.date - lr.date)
    (h2 : m.date - lr.date ≤ 7 * 24 * 3600) :
    msgStep s e prev (some lr) m =
      (none, [{ received := lr.date, sent := m.date,
                response_time := m.date - lr.date }]) := by
  simp [msgStep, h, hp, hw, not_lt.mpr h1, not_lt.mpr h2]

/-- A candidate rejected by either sanity filter is dropped by `continue`,
keeping `last_received` pending. -/
lemma msgStep_sanity_reject (s e : ℚ) (prev : Option MMsg) (lr m : MMsg)
    (h : m.is_from_me = true) (hp : prevFromMe prev = false)
    (hw : s ≤ m.date ∧ m.date ≤ e)
    (hb : m.date - lr.date < 1 ∨ m.date - lr.date > 7 * 24 * 3600) :
    msgStep s e prev (some lr) m = (some lr, []) := by
  rcases hb with hb | hb
  · simp [msgStep, h, hp, hw, hb]
  · have h1 : (1 : ℚ) ≤ m.date - lr.date :=
      le_of_lt (lt_of_le_of_lt (by norm_num) hb)
    simp [msgStep, h, hp, hw, hb, not_lt.mpr h1]

/-- A sent response outside the window emits nothing and clears
`last_received`. -/
lemma msgStep_out_of_window (s e : ℚ) (prev : Option MMsg) (lr m : MMsg)
    (h : m.is_from_me = true) (hp : prevFromMe prev = false)
    (hw : ¬(s ≤ m.date ∧ m.date ≤ e)) :
    msgStep s e prev (some lr) m = (none, []) := by
  simp [msgStep, h, hp, hw]

/-- Every pair emitted by one step of the Messages loop has its sent date
inside the closed window, latency between 1 second and 7 days, and records
exactly the difference of its two timestamps. -/
lemma msgStep_mem (s e : ℚ) (prev lastR : Option MMsg) (m : MMsg) (p : RPair)
    (hp : p ∈ (msgStep s e prev lastR m).2) :
    s ≤ p.sent ∧ p.sent ≤ e ∧ 1 ≤ p.response_time ∧
      p.response_time ≤ 7 * 24 * 3600 ∧
      p.response_time = p.sent - p.received := by
  unfold msgStep at hp
  split at hp
  · simp at hp
  · match lastR, hp with
    | none, hp => simp at hp
    | some lr, hp =>
      simp only at hp
      split at hp
      · simp at hp
      · split at hp
        · split at hp
          · simp at hp
          · split at hp
            · simp at hp
            · rename_i hwin hfast hslow
              simp only [List.mem_singleton] at hp
              subst hp
              exact ⟨hwin.1, hwin.2, not_lt.mp hfast, not_lt.mp hslow, by simp⟩
        · simp at hp

/-- Every pair produced by the Messages pairing loop (from any state) has
its sent date inside the closed window, latency between 1 second and
7 days, and records exactly the difference of its two timestamps. -/
lemma msgLoopAux_mem (s e : ℚ) (p : RPair) :
    ∀ (msgs : List MMsg) (prev lastR : Option MMsg),
      p ∈ msgLoopAux s e prev lastR msgs →
      s ≤ p.sent ∧ p.sent ≤ e ∧ 1 ≤ p.response_time ∧
        p.response_time ≤ 7 * 24 * 3600 ∧
        p.response_time = p.sent - p.received := by
  intro msgs
  induction msgs with
  | nil => intro prev lastR hp; simp [msgLoopAux] at hp
  | cons m rest ih =>
    intro prev lastR hp
    rw [msgLoopAux, List.mem_append] at hp
    rcases hp with hp | hp
    · exact msgStep_mem s e prev lastR m p hp
    · exact ih (some m) (msgStep s e prev lastR m).1 hp

/-- Every pair produced by `messagesPairs` has its sent date inside the
closed window, latency between 1 second and 7 days, and records exactly
the difference of its two timestamps. -/
lemma messagesPairs_mem (s e : ℚ) (msgs : List MMsg) (p : RPair)
    (hp : p ∈ messagesPairs s e msgs) :
    s ≤ p.sent ∧ p.sent ≤ e ∧ 1 ≤ p.response_time ∧
      p.response_time ≤ 7 * 24 * 3600 ∧
      p.response_time = p.sent - p.received :=
  msgLoopAux_mem s e p msgs none none hp

/-! ### Helper lemmas about the Gmail pairing loop -/

/-- Every pair produced by `gmailPairs` has its sent date inside the
closed window and records exactly the difference of its two timestamps.
No constraint on the latency itself is imposed by the loop. -/
lemma gmailPairs_mem (s e : ℚ) (p : RPair) :
    ∀ msgs : List GMsg, p ∈ gmailPairs s e msgs →
      s ≤ p.sent ∧ p.sent ≤ e ∧ p.response_time = p.sent - p.received := by
  intro msgs
  induction msgs with
  | nil => intro hp; simp [gmailPairs] at hp
  | cons c rest ih =>
    match rest, ih with
    | [], _ => intro hp; simp [gmailPairs] at hp
    | n :: rest2, ih =>
      intro hp
      rw [gmailPairs, List.mem_append] at hp
      rcases hp with hp | hp
      · split at hp
        · split at hp
          · rename_i hwin
            simp only [List.mem_singleton] at hp
            subst hp
            exact ⟨hwin.1, hwin.2, by simp⟩
          · simp at hp
        · simp at hp
      · exact ih hp

/-- On a thread sorted ascending by date (as `get_thread_messages`
produces), every Gmail pair has non-negative latency: the pair is always
formed from two adjacent messages of the sorted thread. -/
lemma gmailPairs_nonneg (s e : ℚ) (p : RPair) :
    ∀ msgs : List GMsg, msgs.Chain' (fun a b => a.date ≤ b.date) →
      p ∈ gmailPairs s e msgs → 0 ≤ p.response_time := by
  intro msgs
  induction msgs with
  | nil => intro _ hp; simp [gmailPairs] at hp
  | cons c rest ih =>
    match rest, ih with
    | [], _ => intro _ hp; simp [gmailPairs] at hp
    | n :: rest2, ih =>
      intro hch hp
      rw [gmailPairs, List.mem_append] at hp
      rcases hp with hp | hp
      · split at hp
        · split at hp
          · simp only [List.mem_singleton] at hp
            subst hp
            have hle : c.date ≤ n.date := (List.chain'_cons.mp hch).1
            simp [sub_nonneg, hle]
          · simp at hp
        · simp at hp
      · exact ih (List.chain'_cons.mp hch).2 hp

/-! ### Helper lemmas about the statistics computation -/

/-- A left fold of `min` is below its initial accumulator. -/
lemma foldl_min_le_init (xs : List ℚ) : ∀ a : ℚ, xs.foldl min a ≤ a := by
  induction xs with
  | nil => intro a; simp
  | cons y ys ih =>
    intro a
    calc (y :: ys).foldl min a = ys.foldl min (min a y) := by simp
    _ ≤ min a y := ih (min a y)
    _ ≤ a := min_le_left a y

/-- A left fold of `min` is below every list element. -/
lemma foldl_min_le_mem (xs : List ℚ) : ∀ (a x : ℚ), x ∈ xs → xs.foldl min a ≤ x := by
  induction xs with
  | nil => intro a x hx; simp at hx
  | cons y ys ih =>
    intro a x hx
    rcases List.mem_cons.mp hx with hx | hx
    · subst hx
      calc (x :: ys).foldl min a = ys.foldl min (min a x) := by simp
      _ ≤ min a x := foldl_min_le_init ys (min a x)
      _ ≤ x := min_le_right a x
    · calc (y :: ys).foldl min a = ys.foldl min (min a y) := by simp
      _ ≤ x := ih (min a y) x hx

/-- Python's `min` bounds every member of a non-empty list from below. -/
lemma listMin_le (xs : List ℚ) (x : ℚ) (hx : x ∈ xs) : listMin xs ≤ x := by
  match xs, hx with
  | y :: ys, hx =>
    rcases List.mem_cons.mp hx with h | h
    · subst h; exact foldl_min_le_init ys x
    · exact foldl_min_le_mem ys y x h

/-- A left fold of `max` is above its initial accumulator. -/
lemma init_le_foldl_max (xs : List ℚ) : ∀ a : ℚ, a ≤ xs.foldl max a := by
  induction xs with
  | nil => intro a; simp
  | cons y ys ih =>
    intro a
    calc a ≤ max a y := le_max_left a y
    _ ≤ ys.foldl max (max a y) := ih (max a y)
    _ = (y :: ys).foldl max a := by simp

/-- A left fold of `max` is above every list element. -/
lemma mem_le_foldl_max (xs : List ℚ) : ∀ (a x : ℚ), x ∈ xs → x ≤ xs.foldl max a := by
  induction xs with
  | nil => intro a x hx; simp at hx
  | cons y ys ih =>
    intro a x hx
    rcases List.mem_cons.mp hx with hx | hx
    · subst hx
      calc x ≤ max a x := le_max_right a x
      _ ≤ ys.foldl max (max a x) := init_le_foldl_max ys (max a x)
      _ = (x :: ys).foldl max a := by simp
    · calc x ≤ ys.foldl max (max a y) := ih (max a y) x hx
      _ = (y :: ys).foldl max a := by simp

/-- Python's `max` bounds every member of a non-empty list from above. -/
lemma le_listMax (xs : List ℚ) (x : ℚ) (hx : x ∈ xs) : x ≤ listMax xs := by
  match xs, hx with
  | y :: ys, hx =>
    rcases List.mem_cons.mp hx with h | h
    · subst h; exact init_le_foldl_max ys x
    · exact mem_le_foldl_max ys y x h

/-- A uniform lower bound on the elements bounds the sum from below. -/
lemma card_mul_le_sum (m : ℚ) : ∀ xs : List ℚ, (∀ x ∈ xs, m ≤ x) →
    (xs.length : ℚ) * m ≤ xs.sum := by
  intro xs
  induction xs with
  | nil => intro _; simp
  | cons y ys ih =>
    intro hb
    have h1 : m ≤ y := hb y (List.mem_cons_self y ys)
    have h2 : (ys.length : ℚ) * m ≤ ys.sum :=
      ih fun x hx => hb x (List.mem_cons_of_mem y hx)
    simp only [List.sum_cons, List.length_cons]
    push_cast
    nlinarith

/-- A uniform upper bound on the elements bounds the sum from above. -/
lemma sum_le_card_mul (m : ℚ) : ∀ xs : List ℚ, (∀ x ∈ xs, x ≤ m) →
    xs.sum ≤ (xs.length : ℚ) * m := by
  intro xs
  induction xs with
  | nil => intro _; simp
  | cons y ys ih =>
    intro hb
    have h1 : y ≤ m := hb y (List.mem_cons_self y ys)
    have h2 : ys.sum ≤ (ys.length : ℚ) * m :=
      ih fun x hx => hb x (List.mem_cons_of_mem y hx)
    simp only [List.sum_cons, List.length_cons]
    push_cast
    nlinarith

/-- An in-bounds `getD` returns a member of the list. -/
lemma getD_mem (l : List ℚ) : ∀ (i : ℕ) (d : ℚ), i < l.length → l.getD i d ∈ l := by
  induction l with
  | nil => intro i d hi; simp at hi
  | cons y ys ih =>
    intro i d hi
    match i with
    | 0 => simp
    | j + 1 =>
      have hj : j < ys.length := by simpa using hi
      simpa using List.mem_cons_of_mem y (ih j d hj)

/-- The reported median of a non-empty pair list is one of the recorded
latencies (the lower-middle element of the ascending sort, never an
interpolated value). -/
lemma statsOf_median_mem (pairs : List RPair) (h : pairs ≠ []) :
    (statsOf pairs).median_response_time_seconds ∈
      pairs.map (fun rt => rt.response_time) := by
  set ls := pairs.map (fun rt => rt.response_time) with hls
  have hne : ls ≠ [] := by
    rw [hls]
    intro hc
    exact h (List.map_eq_nil_iff.mp hc)
  have hperm : List.Perm (List.insertionSort (· ≤ ·) ls) ls :=
    List.perm_insertionSort _ ls
  have hlen : (List.insertionSort (· ≤ ·) ls).length = ls.length := hperm.length_eq
  have hpos : 0 < (List.insertionSort (· ≤ ·) ls).length := by
    rw [hlen]
    exact List.length_pos.mpr hne
  have hidx : (List.insertionSort (· ≤ ·) ls).length / 2 <
      (List.insertionSort (· ≤ ·) ls).length :=
    Nat.div_lt_self hpos one_lt_two
  have hmem : (statsOf pairs).median_response_time_seconds ∈
      List.insertionSort (· ≤ ·) ls :=
    getD_mem _ _ 0 hidx
  exact hperm.mem_iff.mp hmem

/-! ### Claim theorems -/

/-- C1: for a conversation with sorted events [RECEIVED at t0, SENT at t1,
SENT at t2] (t0 < t1 < t2), where the pair (t0, t1) passes the latency
filters and t1 lies within the analysis window, both the Messages pairer
and the Gmail pairer emit exactly the single pair (t0, t1); the second
SENT at t2 is not paired (for Messages the latency-filter hypotheses are
the source's 1-second and 7-day bounds; for Gmail the source imposes no
latency filter, so only the window hypothesis matters). -/
theorem c1_single_pair_for_double_sent (s e t0 t1 t2 : ℚ)
    (h01 : t0 < t1) (h12 : t1 < t2)
    (hf1 : 1 ≤ t1 - t0) (hf2 : t1 - t0 ≤ 7 * 24 * 3600)
    (hw1 : s ≤ t1) (hw2 : t1 ≤ e) :
    messagesPairs s e [⟨t0, false⟩, ⟨t1, true⟩, ⟨t2, true⟩] =
      [{ received := t0, sent := t1, response_time := t1 - t0 }] ∧
    gmailPairs s e [⟨t0, false⟩, ⟨t1, true⟩, ⟨t2, true⟩] =
      [{ received := t0, sent := t1, response_time := t1 - t0 }] := by
  constructor
  · have e1 : msgStep s e none none ⟨t0, false⟩ = (some ⟨t0, false⟩, []) :=
      msgStep_recv _ _ _ _ _ rfl
    have e2 : msgStep s e (some ⟨t0, false⟩) (some ⟨t0, false⟩) ⟨t1, true⟩ =
        (none, [{ received := t0, sent := t1, response_time := t1 - t0 }]) :=
      msgStep_emit _ _ _ _ _ rfl rfl ⟨hw1, hw2⟩ hf1 hf2
    have e3 : msgStep s e (some ⟨t1, true⟩) none ⟨t2, true⟩ = (none, []) :=
      msgStep_sent_none _ _ _ _ rfl
    simp [messagesPairs, msgLoopAux, e1, e2, e3]
  · simp [gmailPairs, hw1, hw2]

/-- Witness for C1 at the concrete input s = 0, e = 100, t0 = 0, t1 = 10,
t2 = 20. -/
theorem c1_single_pair_for_double_sent_witness :
    messagesPairs 0 100 [⟨0, false⟩, ⟨10, true⟩, ⟨20, true⟩] =
      [{ received := 0, sent := 10, response_time := 10 }] ∧
    gmailPairs 0 100 [⟨0, false⟩, ⟨10, true⟩, ⟨20, true⟩] =
      [{ received := 0, sent := 10, response_time := 10 }] := by
  have h := c1_single_pair_for_double_sent 0 100 0 10 20 (by norm_num)
    (by norm_num) (by norm_num) (by norm_num) (by norm_num) (by norm_num)
  constructor
  · rw [h.1]; norm_num
  · rw [h.2]; norm_num

/-- C2: for a conversation with sorted events [RECEIVED at t0, RECEIVED at
t1, SENT at t2] (t0 < t1 < t2), the candidate pair passing filters and
window membership, both pairers emit the single pair anchored to the
latest received event t1, with latency t2 - t1; since t0 < t1, that
latency differs from t2 - t0. -/
theorem c2_anchor_to_latest_received (s e t0 t1 t2 : ℚ)
    (h01 : t0 < t1) (h12 : t1 < t2)
    (hf1 : 1 ≤ t2 - t1) (hf2 : t2 - t1 ≤ 7 * 24 * 3600)
    (hw1 : s ≤ t2) (hw2 : t2 ≤ e) :
    messagesPairs s e [⟨t0, false⟩, ⟨t1, false⟩, ⟨t2, true⟩] =
      [{ received := t1, sent := t2, response_time := t2 - t1 }] ∧
    gmailPairs s e [⟨t0, false⟩, ⟨t1, false⟩, ⟨t2, true⟩] =
      [{ received := t1, sent := t2, response_time := t2 - t1 }] ∧
    t2 - t1 ≠ t2 - t0 := by
  refine ⟨?_, ?_, ?_⟩
  · have e1 : msgStep s e none none ⟨t0, false⟩ = (some ⟨t0, false⟩, []) :=
      msgStep_recv _ _ _ _ _ rfl
    have e2 : msgStep s e (some ⟨t0, false⟩) (some ⟨t0, false⟩) ⟨t1, false⟩ =
        (some ⟨t1, false⟩, []) :=
      msgStep_recv _ _ _ _ _ rfl
    have e3 : msgStep s e (some ⟨t1, false⟩) (some ⟨t1, false⟩) ⟨t2, true⟩ =
        (none, [{ received := t1, sent := t2, response_time := t2 - t1 }]) :=
      msgStep_emit _ _ _ _ _ rfl rfl ⟨hw1, hw2⟩ hf1 hf2
    simp [messagesPairs, msgLoopAux, e1, e2, e3]
  · simp [gmailPairs, hw1, hw2]
  · intro hc
    exact ne_of_gt h01 (sub_right_inj.mp hc)

/-- Witness for C2 at the concrete input s = 0, e = 100, t0 = 0, t1 = 5,
t2 = 10. -/
theorem c2_anchor_to_latest_received_witness :
    messagesPairs 0 100 [⟨0, false⟩, ⟨5, false⟩, ⟨10, true⟩] =
      [{ received := 5, sent := 10, response_time := 5 }] ∧
    gmailPairs 0 100 [⟨0, false⟩, ⟨5, false⟩, ⟨10, true⟩] =
      [{ received := 5, sent := 10, response_time := 5 }] := by
  have h := c2_anchor_to_latest_received 0 100 0 5 10 (by norm_num)
    (by norm_num) (by norm_num) (by norm_num) (by norm_num) (by norm_num)
  constructor
  · rw [h.1]; norm_num
  · rw [h.2.1]; norm_num

/-- C3 counterexample: the Gmail pairing loop applies no latency filter, so
a thread holding a received and a sent message at the same timestamp yields
a pair with latency exactly 0 that enters the computed statistics — the
claim that every pair entering any source's statistics has strictly
positive latency is false for the Gmail analyzer. -/
theorem c3_counterexample_gmail_zero_latency :
    gmailPairs 0 200 [⟨100, false⟩, ⟨100, true⟩] =
      [{ received := 100, sent := 100, response_time := 0 }] ∧
    analyzeGmail 0 200 [⟨100, false⟩, ⟨100, true⟩] =
      .populated (statsOf [{ received := 100, sent := 100, response_time := 0 }]) ∧
    { received := 100, sent := 100, response_time := (0 : ℚ) } ∈
      (statsOf [{ received := 100, sent := 100, response_time := 0 }]).response_details ∧
    ¬ (0 : ℚ) > 0 := by
  have h1 : gmailPairs 0 200 [⟨100, false⟩, ⟨100, true⟩] =
      [{ received := 100, sent := 100, response_time := 0 }] := by
    norm_num [gmailPairs]
  refine ⟨h1, ?_, ?_, by norm_num⟩
  · rw [analyzeGmail, h1]
    simp [computeStats]
  · simp [statsOf]

/-- C3 amended: every pair emitted by the Messages analyzer has strictly
positive latency (in fact at least 1 second) and at most 7 days, and the
recorded latency is exactly the difference of the two timestamps (never
clamped); the Gmail analyzer applies no latency filter at all — on a
date-sorted thread its pairs have merely non-negative latency (also never
clamped), and a zero-latency pair can enter its statistics. -/
theorem c3_amended_latency_policy (s e : ℚ) :
    (∀ (msgs : List MMsg) (p : RPair), p ∈ messagesPairs s e msgs →
      0 < p.response_time ∧ p.response_time ≤ 7 * 24 * 3600 ∧
        p.response_time = p.sent - p.received) ∧
    (∀ (msgs : List GMsg) (p : RPair),
      msgs.Chain' (fun a b => a.date ≤ b.date) → p ∈ gmailPairs s e msgs →
        0 ≤ p.response_time ∧ p.response_time = p.sent - p.received) := by
  constructor
  · intro msgs p hp
    obtain ⟨_, _, h1, h2, h3⟩ := messagesPairs_mem s e msgs p hp
    exact ⟨lt_of_lt_of_le zero_lt_one h1, h2, h3⟩
  · intro msgs p hch hp
    exact ⟨gmailPairs_nonneg s e p msgs hch hp,
      (gmailPairs_mem s e p msgs hp).2.2⟩

/-- Witness for the amended C3: a Messages pair and a (zero-latency) Gmail
pair at concrete inputs. -/
theorem c3_amended_latency_policy_witness :
    0 < (RPair.mk 0 10 10).response_time ∧
    0 ≤ (RPair.mk 100 100 0).response_time ∧
    (RPair.mk 100 100 0).response_time =
      (RPair.mk 100 100 0).sent - (RPair.mk 100 100 0).received := by
  have hm : RPair.mk 0 10 10 ∈ messagesPairs 0 100 [⟨0, false⟩, ⟨10, true⟩] := by
    have : messagesPairs 0 100 [⟨0, false⟩, ⟨10, true⟩] = [RPair.mk 0 10 10] := by
      norm_num [messagesPairs, msgLoopAux, msgStep, prevFromMe]
    rw [this]
    exact List.mem_singleton.mpr rfl
  have hg : RPair.mk 100 100 0 ∈ gmailPairs 0 200 [⟨100, false⟩, ⟨100, true⟩] := by
    have : gmailPairs 0 200 [⟨100, false⟩, ⟨100, true⟩] = [RPair.mk 100 100 0] := by
      norm_num [gmailPairs]
    rw [this]
    exact List.mem_singleton.mpr rfl
  have h1 := (c3_amended_latency_policy 0 100).1 [⟨0, false⟩, ⟨10, true⟩]
    (RPair.mk 0 10 10) hm
  have h2 := (c3_amended_latency_policy 0 200).2 [⟨100, false⟩, ⟨100, true⟩]
    (RPair.mk 100 100 0) (by simp) hg
  exact ⟨h1.1, h2.1, h2.2⟩

/-- C4: a pair is counted exactly when its sent instant lies in the closed
window [s, e]: every pair either pairer emits has its sent date in the
closed interval, and for the canonical received-then-sent candidate the
pair is emitted if and only if the sent date is in the closed interval
(for Messages, under the source's sanity-filter side conditions); the
triggering received timestamp t0 is unconstrained, so it may lie before
the window start. -/
theorem c4_window_closed_interval (s e : ℚ) :
    (∀ (msgs : List GMsg) (p : RPair), p ∈ gmailPairs s e msgs →
      s ≤ p.sent ∧ p.sent ≤ e) ∧
    (∀ (msgs : List MMsg) (p : RPair), p ∈ messagesPairs s e msgs →
      s ≤ p.sent ∧ p.sent ≤ e) ∧
    (∀ t0 t1 : ℚ, gmailPairs s e [⟨t0, false⟩, ⟨t1, true⟩] =
      if s ≤ t1 ∧ t1 ≤ e then
        [{ received := t0, sent := t1, response_time := t1 - t0 }]
      else []) ∧
    (∀ t0 t1 : ℚ, 1 ≤ t1 - t0 → t1 - t0 ≤ 7 * 24 * 3600 →
      messagesPairs s e [⟨t0, false⟩, ⟨t1, true⟩] =
      if s ≤ t1 ∧ t1 ≤ e then
        [{ received := t0, sent := t1, response_time := t1 - t0 }]
      else []) := by
  refine ⟨?_, ?_, ?_, ?_⟩
  · intro msgs p hp
    exact ⟨(gmailPairs_mem s e p msgs hp).1, (gmailPairs_mem s e p msgs hp).2.1⟩
  · intro msgs p hp
    exact ⟨(messagesPairs_mem s e msgs p hp).1, (messagesPairs_mem s e msgs p hp).2.1⟩
  · intro t0 t1
    simp [gmailPairs]
  · intro t0 t1 hf1 hf2
    have e1 : msgStep s e none none ⟨t0, false⟩ = (some ⟨t0, false⟩, []) :=
      msgStep_recv _ _ _ _ _ rfl
    by_cases hw : s ≤ t1 ∧ t1 ≤ e
    · rw [if_pos hw]
      have e2 : msgStep s e (some ⟨t0, false⟩) (some ⟨t0, false⟩) ⟨t1, true⟩ =
          (none, [{ received := t0, sent := t1, response_time := t1 - t0 }]) :=
        msgStep_emit _ _ _ _ _ rfl rfl hw hf1 hf2
      simp [messagesPairs, msgLoopAux, e1, e2]
    · rw [if_neg hw]
      have e2 : msgStep s e (some ⟨t0, false⟩) (some ⟨t0, false⟩) ⟨t1, true⟩ =
          (none, []) :=
        msgStep_out_of_window _ _ _ _ _ rfl rfl hw
      simp [messagesPairs, msgLoopAux, e1, e2]

/-- Witness for C4: with window [100, 200], a sent timestamp exactly at
either bound is included, one second outside either bound is excluded, and
a triggering received event at 50 (before the window start) does not
exclude the pair. -/
theorem c4_window_closed_interval_witness :
    gmailPairs 100 200 [⟨50, false⟩, ⟨100, true⟩] =
      [{ received := 50, sent := 100, response_time := 50 }] ∧
    gmailPairs 100 200 [⟨50, false⟩, ⟨200, true⟩] =
      [{ received := 50, sent := 200, response_time := 150 }] ∧
    gmailPairs 100 200 [⟨50, false⟩, ⟨99, true⟩] = [] ∧
    gmailPairs 100 200 [⟨50, false⟩, ⟨201, true⟩] = [] ∧
    messagesPairs 100 200 [⟨50, false⟩, ⟨100, true⟩] =
      [{ received := 50, sent := 100, response_time := 50 }] := by
  have h3 := (c4_window_closed_interval 100 200).2.2.1
  have h4 := (c4_window_closed_interval 100 200).2.2.2
  refine ⟨?_, ?_, ?_, ?_, ?_⟩
  · rw [h3 50 100]; norm_num
  · rw [h3 50 200]; norm_num
  · rw [h3 50 99]; norm_num
  · rw [h3 50 201]; norm_num
  · rw [h4 50 100 (by norm_num) (by norm_num)]; norm_num

/-- C5: for every non-empty pair list, the reported median is the element
at index count / 2 of the ascending-sorted latency list — an actual
recorded latency, never an interpolated value. -/
theorem c5_median_lower_middle (pairs : List RPair) (h : pairs ≠ []) :
    (statsOf pairs).median_response_time_seconds =
      (List.insertionSort (· ≤ ·) (pairs.map (fun rt => rt.response_time))).getD
        (pairs.length / 2) 0 ∧
    (statsOf pairs).median_response_time_seconds ∈
      pairs.map (fun rt => rt.response_time) := by
  constructor
  · have hlen : (List.insertionSort (· ≤ ·)
        (pairs.map (fun rt => rt.response_time))).length = pairs.length := by
      rw [(List.perm_insertionSort _ _).length_eq, List.length_map]
    simp [statsOf, hlen]
  · exact statsOf_median_mem pairs h

/-- Witness for C5: on the even-count latency multiset [10, 20, 30, 40]
the median is the lower-middle element 30, not the interpolated 25. -/
theorem c5_median_lower_middle_witness :
    (statsOf [{ received := 0, sent := 10, response_time := 10 },
              { received := 0, sent := 20, response_time := 20 },
              { received := 0, sent := 30, response_time := 30 },
              { received := 0, sent := 40, response_time := 40 }]
      ).median_response_time_seconds = 30 ∧
    (30 : ℚ) ≠ 25 ∧
    (statsOf [{ received := 0, sent := 10, response_time := 10 },
              { received := 0, sent := 20, response_time := 20 },
              { received := 0, sent := 30, response_time := 30 },
              { received := 0, sent := 40, response_time := 40 }]
      ).median_response_time_seconds ∈
      ([{ received := 0, sent := 10, response_time := 10 },
        { received := 0, sent := 20, response_time := 20 },
        { received := 0, sent := 30, response_time := 30 },
        { received := 0, sent := 40, response_time := 40 }] : List RPair).map
        (fun rt => rt.response_time) := by
  have h := c5_median_lower_middle
    [{ received := 0, sent := 10, response_time := 10 },
     { received := 0, sent := 20, response_time := 20 },
     { received := 0, sent := 30, response_time := 30 },
     { received := 0, sent := 40, response_time := 40 }] (by simp)
  refine ⟨?_, by norm_num, h.2⟩
  norm_num [statsOf, List.insertionSort, List.orderedInsert]

/-- C6: the combined cross-source average is the latency sum of the
concatenated pair lists divided by the total pair count; for sources
contributing latencies 10, 10, 10 and 100 it is 32.5 = 65/2, not the
55 that averaging the two per-source averages 10 and 100 would give. -/
theorem c6_combined_average_from_union :
    combinedAvgSeconds
        [{ received := 0, sent := 10, response_time := 10 },
         { received := 0, sent := 10, response_time := 10 },
         { received := 0, sent := 10, response_time := 10 }]
        []
        [{ received := 0, sent := 100, response_time := 100 }] = 65 / 2 ∧
    (statsOf [{ received := 0, sent := 10, response_time := 10 },
              { received := 0, sent := 10, response_time := 10 },
              { received := 0, sent := 10, response_time := 10 }]
      ).avg_response_time_seconds = 10 ∧
    (statsOf [{ received := 0, sent := 100, response_time := 100 }]
      ).avg_response_time_seconds = 100 ∧
    ((10 : ℚ) + 100) / 2 = 55 ∧
    (65 : ℚ) / 2 ≠ 55 ∧
    (∀ gmail outlook messages : List RPair,
      combinedAvgSeconds gmail outlook messages =
        ((gmail ++ outlook ++ messages).map (fun rt => rt.response_time)).sum /
          (((gmail ++ outlook ++ messages).length : ℕ) : ℚ)) :=
  ⟨by norm_num [combinedAvgSeconds], by norm_num [statsOf],
   by norm_num [statsOf], by norm_num, by norm_num,
   fun _ _ _ => rfl⟩

/-- C7: a window in which no pairs survive yields the non-error no-data
result: `total_responses` is 0, the descriptive message is carried, no
numeric statistics are present (the no-data constructor carries none), and
this result is distinct both from a fetch failure and from every populated
result. -/
theorem c7_empty_window_no_data :
    (∀ (s e : ℚ) (msgs : List MMsg), messagesPairs s e msgs = [] →
      analyzeMessages s e msgs = .noData noDataMessage) ∧
    (∀ (s e : ℚ) (msgs : List GMsg), gmailPairs s e msgs = [] →
      analyzeGmail s e msgs = .noData noDataMessage) ∧
    totalResponses (.noData noDataMessage) = 0 ∧
    AnalyzeResult.noData noDataMessage ≠ .failure ∧
    (∀ st : Stats, AnalyzeResult.noData noDataMessage ≠ .populated st) := by
  refine ⟨?_, ?_, rfl, by simp, fun st => by simp⟩
  · intro s e msgs hp
    rw [analyzeMessages, hp]
    simp [computeStats]
  · intro s e msgs hp
    rw [analyzeGmail, hp]
    simp [computeStats]

/-- Witness for C7: both analyzers on an empty conversation return the
no-data result. -/
theorem c7_empty_window_no_data_witness :
    analyzeMessages 0 100 [] = .noData noDataMessage ∧
    analyzeGmail 0 100 [] = .noData noDataMessage := by
  have h := c7_empty_window_no_data
  exact ⟨h.1 0 100 [] (by simp [messagesPairs, msgLoopAux]),
         h.2.1 0 100 [] (by simp [gmailPairs])⟩

/-- C9: every populated statistics result produced by the shared analyzer
statistics block is internally consistent — fastest ≤ median ≤ slowest,
fastest ≤ average ≤ slowest, and the reported count equals the length of
the pair list the statistics were computed from. -/
theorem c9_populated_stats_consistent (pairs : List RPair) (st : Stats)
    (h : computeStats pairs = .populated st) :
    st.fastest_response ≤ st.median_response_time_seconds ∧
    st.median_response_time_seconds ≤ st.slowest_response ∧
    st.fastest_response ≤ st.avg_response_time_seconds ∧
    st.avg_response_time_seconds ≤ st.slowest_response ∧
    st.total_responses = st.response_details.length := by
  by_cases hp : pairs = []
  · simp [computeStats, if_pos hp] at h
  · simp only [computeStats, if_neg hp] at h
    injection h with h2
    subst h2
    set ls := pairs.map (fun rt => rt.response_time) with hls
    have hmem : (statsOf pairs).median_response_time_seconds ∈ ls :=
      statsOf_median_mem pairs hp
    have hlenpos : (0 : ℚ) < (pairs.length : ℚ) := by
      exact_mod_cast List.length_pos.mpr hp
    have hlsLen : (ls.length : ℚ) = (pairs.length : ℚ) := by
      rw [hls, List.length_map]
    have hsum_lo : (pairs.length : ℚ) * listMin ls ≤ ls.sum := by
      rw [← hlsLen]
      exact card_mul_le_sum (listMin ls) ls fun x hx => listMin_le ls x hx
    have hsum_hi : ls.sum ≤ (pairs.length : ℚ) * listMax ls := by
      rw [← hlsLen]
      exact sum_le_card_mul (listMax ls) ls fun x hx => le_listMax ls x hx
    refine ⟨listMin_le ls _ hmem, le_listMax ls _ hmem, ?_, ?_, rfl⟩
    · show listMin ls ≤ ls.sum / (pairs.length : ℚ)
      rw [le_div_iff₀ hlenpos]
      linarith [hsum_lo]
    · show ls.sum / (pairs.length : ℚ) ≤ listMax ls
      rw [div_le_iff₀ hlenpos]
      linarith [hsum_hi]

/-- Witness for C9 at the concrete pair list with latencies 10 and 20. -/
theorem c9_populated_stats_consistent_witness :
    (statsOf [{ received := 0, sent := 10, response_time := 10 },
              { received := 0, sent := 20, response_time := 20 }]
      ).fastest_response ≤
      (statsOf [{ received := 0, sent := 10, response_time := 10 },
                { received := 0, sent := 20, response_time := 20 }]
        ).median_response_time_seconds ∧
    (statsOf [{ received := 0, sent := 10, response_time := 10 },
              { received := 0, sent := 20, response_time := 20 }]
      ).avg_response_time_seconds ≤
      (statsOf [{ received := 0, sent := 10, response_time := 10 },
                { received := 0, sent := 20, response_time := 20 }]
        ).slowest_response ∧
    (statsOf [{ received := 0, sent := 10, response_time := 10 },
              { received := 0, sent := 20, response_time := 20 }]
      ).total_responses =
      (statsOf [{ received := 0, sent := 10, response_time := 10 },
                { received := 0, sent := 20, response_time := 20 }]
        ).response_details.length := by
  have h := c9_populated_stats_consistent
    [{ received := 0, sent := 10, response_time := 10 },
     { received := 0, sent := 20, response_time := 20 }]
    (statsOf [{ received := 0, sent := 10, response_time := 10 },
              { received := 0, sent := 20, response_time := 20 }])
    (by simp [computeStats])
  exact ⟨h.1, h.2.2.2.1, h.2.2.2.2⟩

/-- C10: every pair the Messages analyzer emits has latency at least 1 full
second and at most 7 days (so the Messages filter is strictly tighter than
rejecting non-positive latencies), and a candidate rejected by either
sanity bound leaves the pending `last_received` state unchanged instead of
clearing it. -/
theorem c10_messages_sanity_filter (s e : ℚ) :
    (∀ (msgs : List MMsg) (p : RPair), p ∈ messagesPairs s e msgs →
      1 ≤ p.response_time ∧ p.response_time ≤ 7 * 24 * 3600) ∧
    (∀ (prev : Option MMsg) (lr m : MMsg),
      m.is_from_me = true → prevFromMe prev = false →
      s ≤ m.date ∧ m.date ≤ e →
      (m.date - lr.date < 1 ∨ m.date - lr.date > 7 * 24 * 3600) →
      msgStep s e prev (some lr) m = (some lr, [])) := by
  constructor
  · intro msgs p hp
    obtain ⟨_, _, h1, h2, _⟩ := messagesPairs_mem s e msgs p hp
    exact ⟨h1, h2⟩
  · intro prev lr m h hp hw hb
    exact msgStep_sanity_reject s e prev lr m h hp hw hb

/-- Witness for C10: a genuine 0.5-second response is strictly positive yet
silently discarded, the rejecting step keeps the pending received message,
and an accepted pair's latency obeys both bounds. -/
theorem c10_messages_sanity_filter_witness :
    messagesPairs 0 100 [⟨0, false⟩, ⟨1 / 2, true⟩] = [] ∧
    0 < (1 : ℚ) / 2 - 0 ∧
    msgStep 0 100 (some ⟨0, false⟩) (some ⟨0, false⟩) ⟨1 / 2, true⟩ =
      (some ⟨0, false⟩, []) ∧
    1 ≤ (RPair.mk 0 10 10).response_time ∧
    (RPair.mk 0 10 10).response_time ≤ 7 * 24 * 3600 := by
  have h := c10_messages_sanity_filter 0 100
  have e1 : msgStep 0 100 none none ⟨0, false⟩ = (some ⟨0, false⟩, []) :=
    msgStep_recv _ _ _ _ _ rfl
  have e2 : msgStep 0 100 (some ⟨0, false⟩) (some ⟨0, false⟩) ⟨1 / 2, true⟩ =
      (some ⟨0, false⟩, []) :=
    h.2 (some ⟨0, false⟩) ⟨0, false⟩ ⟨1 / 2, true⟩ rfl rfl (by norm_num)
      (Or.inl (by norm_num))
  have hm : RPair.mk 0 10 10 ∈ messagesPairs 0 100 [⟨0, false⟩, ⟨10, true⟩] := by
    have hq : messagesPairs 0 100 [⟨0, false⟩, ⟨10, true⟩] = [RPair.mk 0 10 10] := by
      norm_num [messagesPairs, msgLoopAux, msgStep, prevFromMe]
    rw [hq]
    exact List.mem_singleton.mpr rfl
  have hb := h.1 [⟨0, false⟩, ⟨10, true⟩] (RPair.mk 0 10 10) hm
  refine ⟨?_, by norm_num, e2, hb.1, hb.2⟩
  simp only [messagesPairs, msgLoopAux, e1, e2, List.nil_append, List.append_nil]

/-! ### Helper lemmas for duration formatting -/

/-- Python's floored modulus by a positive natural, taken below the floor:
the whole-second part of `a mod k` is the natural modulus of the
whole-second part. -/
lemma natFloor_pymod (s : ℚ) (hs : 0 ≤ s) (k : ℕ) (hk : 0 < k) :
    ⌊pymod s (k : ℚ)⌋₊ = ⌊s⌋₊ % k := by
  have h2 : (0 : ℚ) ≤ s / (k : ℚ) := div_nonneg hs (by positivity)
  have hfloor : (⌊s / (k : ℚ)⌋ : ℚ) = ((⌊s⌋₊ / k : ℕ) : ℚ) := by
    have h3 : ⌊s / (k : ℚ)⌋ = ((⌊s / (k : ℚ)⌋₊ : ℕ) : ℤ) := by
      calc ⌊s / (k : ℚ)⌋ = ((⌊s / (k : ℚ)⌋.toNat : ℕ) : ℤ) :=
            (Int.toNat_of_nonneg (Int.floor_nonneg.mpr h2)).symm
      _ = ((⌊s / (k : ℚ)⌋₊ : ℕ) : ℤ) := by rw [Int.floor_toNat]
    rw [h3, Nat.floor_div_nat]
    norm_cast
  rw [pymod, hfloor]
  have hcast : (k : ℚ) * ((⌊s⌋₊ / k : ℕ) : ℚ) = ((k * (⌊s⌋₊ / k) : ℕ) : ℚ) := by
    push_cast
    ring
  rw [hcast, Nat.floor_sub_nat]
  have h5 := Nat.mod_add_div ⌊s⌋₊ k
  omega

/-- The whole-second part of a quotient by a positive natural is the
natural quotient of the whole-second part. -/
lemma natFloor_div_nat (s : ℚ) (k : ℕ) : ⌊s / (k : ℚ)⌋₊ = ⌊s⌋₊ / k :=
  Nat.floor_div_nat s k

/-- The duration format described by the specification, phrased over the
whole number of seconds n = floor of the input: thresholds on n, unit
counts by natural division, minute/hour/day units singular exactly on a
count of one, and the seconds unit invariably plural. -/
def formatDurationSpec (s : ℚ) : String :=
  let n : ℕ := ⌊s⌋₊
  if n < 60 then
    toString n ++ " seconds"
  else if n < 3600 then
    let minutes := n / 60
    toString minutes ++ (if minutes = 1 then " minute" else " minutes")
  else if n < 86400 then
    let hours := n / 3600
    let minutes := n % 3600 / 60
    toString hours ++ (if hours = 1 then " hour " else " hours ") ++
      toString minutes ++ " min"
  else
    let days := n / 86400
    let hours := n % 86400 / 3600
    toString days ++ (if days = 1 then " day " else " days ") ++
      toString hours ++ (if hours = 1 then " hour" else " hours")

/-- Specialization of the floor-of-quotient law to the literal 60. -/
lemma floor_div_sixty (s : ℚ) : ⌊s / (60 : ℚ)⌋₊ = ⌊s⌋₊ / 60 := by
  have h := Nat.floor_div_nat s 60
  norm_num at h
  exact h

/-- Specialization of the floor-of-quotient law to the literal 3600. -/
lemma floor_div_hour (s : ℚ) : ⌊s / (3600 : ℚ)⌋₊ = ⌊s⌋₊ / 3600 := by
  have h := Nat.floor_div_nat s 3600
  norm_num at h
  exact h

/-- Specialization of the floor-of-quotient law to the literal 86400. -/
lemma floor_div_day (s : ℚ) : ⌊s / (86400 : ℚ)⌋₊ = ⌊s⌋₊ / 86400 := by
  have h := Nat.floor_div_nat s 86400
  norm_num at h
  exact h

/-- Specialization of the floored-modulus law to the literal 3600. -/
lemma floor_pymod_hour (s : ℚ) (hs : 0 ≤ s) :
    ⌊pymod s (3600 : ℚ)⌋₊ = ⌊s⌋₊ % 3600 := by
  have h := natFloor_pymod s hs 3600 (by norm_num)
  norm_num at h
  exact h

/-- Specialization of the floored-modulus law to the literal 86400. -/
lemma floor_pymod_day (s : ℚ) (hs : 0 ≤ s) :
    ⌊pymod s (86400 : ℚ)⌋₊ = ⌊s⌋₊ % 86400 := by
  have h := natFloor_pymod s hs 86400 (by norm_num)
  norm_num at h
  exact h

/-- C8 amended: on every non-negative duration, `format_duration` agrees
with the specification-level formatter `formatDurationSpec`: thresholds at
60, 3600 and 86400 whole seconds, all counts rounded down (floor, never
round-to-nearest), minute/hour/day unit names singular exactly on a count
of one — but the seconds unit is always the plural literal
`" seconds"`, so an input of 1 second renders as `"1 seconds"`. -/
theorem c8_amended_format_floor_thresholds (s : ℚ) (hs : 0 ≤ s) :
    format_duration s = formatDurationSpec s := by
  have t60 : ⌊s⌋₊ < 60 ↔ s < 60 := by
    rw [Nat.floor_lt hs]
    norm_num
  have t3600 : ⌊s⌋₊ < 3600 ↔ s < 3600 := by
    rw [Nat.floor_lt hs]
    norm_num
  have t86400 : ⌊s⌋₊ < 86400 ↔ s < 86400 := by
    rw [Nat.floor_lt hs]
    norm_num
  simp only [format_duration, formatDurationSpec]
  by_cases h1 : s < 60
  · rw [if_pos h1, if_pos (t60.mpr h1)]
  · rw [if_neg h1, if_neg (fun hc => h1 (t60.mp hc))]
    by_cases h2 : s < 3600
    · rw [if_pos h2, if_pos (t3600.mpr h2)]
      rw [floor_div_sixty s]
      by_cases hm : ⌊s⌋₊ / 60 = 1
      · rw [if_neg (not_not_intro hm), if_pos hm, String.append_empty]
      · rw [if_pos hm, if_neg hm, String.append_assoc]
        rfl
    · rw [if_neg h2, if_neg (fun hc => h2 (t3600.mp hc))]
      by_cases h3 : s < 86400
      · rw [if_pos h3, if_pos (t86400.mpr h3)]
        rw [floor_div_hour s, floor_div_sixty (pymod s 3600),
          floor_pymod_hour s hs]
        by_cases hh : ⌊s⌋₊ / 3600 = 1
        · rw [if_neg (not_not_intro hh), if_pos hh, hh]
          rfl
        · rw [if_pos hh, if_neg hh]
          congr 1
          congr 1
          rw [String.append_assoc, String.append_assoc]
          rfl
      · rw [if_neg h3, if_neg (fun hc => h3 (t86400.mp hc))]
        rw [floor_div_day s, floor_div_hour (pymod s 86400),
          floor_pymod_day s hs]
        by_cases hd : ⌊s⌋₊ / 86400 = 1
        · by_cases hh : ⌊s⌋₊ % 86400 / 3600 = 1
          · rw [if_neg (not_not_intro hd), if_pos hd,
              if_neg (not_not_intro hh), if_pos hh, hd, hh]
            rfl
          · rw [if_neg (not_not_intro hd), if_pos hd, if_pos hh, if_neg hh,
              hd, String.append_assoc]
            congr 1
        · by_cases hh : ⌊s⌋₊ % 86400 / 3600 = 1
          · rw [if_pos hd, if_neg hd, if_neg (not_not_intro hh), if_pos hh,
              hh, String.append_assoc]
            congr 1
            congr 1
            rw [String.append_assoc, String.append_assoc]
            rfl
          · rw [if_pos hd, if_neg hd, if_pos hh, if_neg hh,
              String.append_assoc]
            congr 1
            congr 1
            rw [String.append_assoc, String.append_assoc]
            rfl

/-- C8 counterexample: the seconds branch of `format_duration` never uses a
singular unit name — an input of 1 second renders as "1 seconds", not the
"1 second" the claim requires. -/
theorem c8_counterexample_one_second :
    format_duration 1 = "1 seconds" ∧ "1 seconds" ≠ "1 second" := by
  constructor
  · simp only [format_duration]
    rw [if_pos (show (1 : ℚ) < 60 by norm_num),
      show ⌊(1 : ℚ)⌋₊ = 1 by norm_num]
    rfl
  · decide

/-- Witness for the amended C8 at the concrete duration 3661 seconds. -/
theorem c8_amended_format_floor_thresholds_witness :
    (0 : ℚ) ≤ 3661 ∧ format_duration 3661 = formatDurationSpec 3661 :=
  ⟨by norm_num, c8_amended_format_floor_thresholds 3661 (by norm_num)⟩
